import Mathlib

/-!
Shallow embedding of `src/unpacker/cpp/volume_archive_libarchive.cc`: the
random-access coordinator (`VolumeArchiveLibarchive`) that bridges a
random-access byte source to libarchive's strictly sequential pull model.

The external libarchive codec is modelled as a black box positioned over a
fixed list of archive entries; the coordinator's own logic (header replay,
forward skip, bounded decode, sticky error flag, window buffer bookkeeping)
is translated line by line from the source.  The two internal loops of
`DecompressData` and the replay loop are fuel-indexed: a `none` result means
the fuel ran out, so a loop that never terminates returns `none` at every
fuel.  `PP_DCHECK` is a debug-only assertion (a no-op in release builds) and
is modelled as a no-op; its presence is noted in comments where relevant.
-/

namespace WGU

/-- Tuning constant from `volume_archive_constants` (declared in
`volume_archive.h`, which is not under `src/`).  Modelled from the spec: the
spec states the exact values are a tuning choice, not a correctness
requirement, so we fix concrete positive values with
`kMinimumDataChunkSize ≤ kMaximumDataChunkSize`. -/
def kHeaderChunkSize : Int := 1024

/-- Tuning constant, see `kHeaderChunkSize`. -/
def kMinimumDataChunkSize : Int := 32768

/-- Tuning constant, see `kHeaderChunkSize`. -/
def kMaximumDataChunkSize : Int := 1048576

/-- Tuning constant, see `kHeaderChunkSize`. -/
def kDummyBufferSize : Int := 524288

/-- Capacity of the fixed decompression window buffer
(`decompressed_data_buffer_`), see `kHeaderChunkSize`. -/
def kDecompressBufferSize : Int := 524288

/-- Negative sentinel returned by `ReadData` on failure (line 15 of the
source: `const int64_t kArchiveReadDataError = -1`). -/
def kArchiveReadDataError : Int := -1

/-- Error-message constant from `volume_archive_constants` (header not under
`src/`); only its identity matters, not its text. -/
def kFileNotFound : String := "File not found for read data request."

/-- Error-message constant, see `kFileNotFound`. -/
def kArchiveNextHeaderErrorMsg : String := "Error at reading next header."

/-- Error-message constant, see `kFileNotFound`. -/
def kArchiveReadDataErrorMsg : String := "Error at reading data."

/-- Error-message constant, see `kFileNotFound`. -/
def kArchiveReadFreeErrorMsg : String := "Error at archive read free."

/-- Archive entry metadata together with the decoded byte stream the codec
produces for it.  `size` is the declared size from the entry header
(`archive_entry_size`); `data` is the payload the codec can actually decode.
A well-formed archive has `data.length = size`; keeping the two separate lets
the model express truncated or corrupt entries. -/
structure Entry where
  pathname : String
  size : Int
  isDirectory : Bool
  mtime : Int
  data : List Nat
deriving DecidableEq, Repr

/-- State of the external libarchive codec handle (`archive_`): `nextIdx` is
the index of the entry the next `archive_read_next_header` call will produce,
`consumed` the number of decoded bytes of the current entry (the one before
`nextIdx`) already produced by `archive_read_data`.  The archive's entry list
is the fixed environment `env` passed to each operation. -/
structure ArchiveState where
  nextIdx : Nat
  consumed : Nat
deriving DecidableEq, Repr

/-- Model of `archive_read_data(archive_, buf, req)` for the sequential
codec: produce up to `req` of the remaining decoded bytes of the current
entry and advance.  A non-positive request, a codec positioned before the
first header, or an exhausted entry produce 0 bytes. -/
def archiveReadData (env : List Entry) (a : ArchiveState) (req : Int) :
    Int × List Nat × ArchiveState :=
  match a.nextIdx with
  | 0 => (0, [], a)
  | i + 1 =>
    match env[i]? with
    | none => (0, [], a)
    | some e =>
      let rem : Nat := e.data.length - a.consumed
      let n : Nat := min req.toNat rem
      ((n : Int), (e.data.drop a.consumed).take n, ⟨i + 1, a.consumed + n⟩)

/-- State of a `VolumeArchiveLibarchive` instance (constructor at lines
117-133).  The decompression window (`decompressed_data_buffer_` with the
moving `decompressed_data_` / `decompressed_data_size_` pair) is represented
by the index `decompressed_data_pos` of `decompressed_data_` within the
buffer together with `window`, the live bytes
`buffer[pos, pos + decompressed_data_size_)`; the window's byte count
`decompressed_data_size_` is `window.length`.  `decompressed_data_set` models
`decompressed_data_ != NULL`.  The fields `init_count`, `free_count` and
`reader_reset_count` are ghost instrumentation counting calls to `Init()`,
`archive_read_free` and `reader()->Seek(0, SEEK_SET)`; `reader_closed` and
`reader_release_failed` record the effect of releasing the ByteSource in
`CleanupReader`. -/
structure VolumeState where
  archive : Option ArchiveState
  header_read : Bool
  reader_data_size : Int
  current_archive_entry : Option Entry
  last_read_data_offset : Int
  last_read_data_length : Int
  decompressed_data_set : Bool
  decompressed_data_pos : Int
  window : List Nat
  decompressed_error : Bool
  error_message : Option String
  init_count : Nat
  free_count : Nat
  reader_reset_count : Nat
  reader_closed : Bool
  reader_release_failed : Bool
deriving DecidableEq, Repr

/-- Freshly constructed instance (lines 117-133). -/
def initialState : VolumeState where
  archive := none
  header_read := false
  reader_data_size := kHeaderChunkSize
  current_archive_entry := none
  last_read_data_offset := 0
  last_read_data_length := 0
  decompressed_data_set := false
  decompressed_data_pos := 0
  window := []
  decompressed_error := false
  error_message := none
  init_count := 0
  free_count := 0
  reader_reset_count := 0
  reader_closed := false
  reader_release_failed := false

/-- Model of `Init()` (lines 139-172): construct a fresh codec handle
positioned before the first header and mark the header phase active
(`archive_read_open1` reads the archive headers through the callbacks).
Codec construction, format registration and stream opening are environment
operations modelled as succeeding. -/
def Init (st : VolumeState) : VolumeState :=
  { st with archive := some ⟨0, 0⟩, header_read := true,
            init_count := st.init_count + 1 }

/-- Result of `GetNextHeader`: a produced entry, end of archive (the
out-parameter pathname is NULL, line 191), or failure. -/
inductive GNHResult where
  | ok (e : Entry)
  | eof
  | err
deriving DecidableEq, Repr

/-- Model of `GetNextHeader` (lines 174-204): re-enable the header phase,
reset the chunk-size hint to `kHeaderChunkSize`, reset the forward cursor
`last_read_data_offset_` to 0, then advance the codec to the next header.
The decompression window fields are deliberately left untouched.  Advancing
a NULL codec handle is modelled as the error branch (lines 199-202). -/
def GetNextHeader (env : List Entry) (st : VolumeState) :
    GNHResult × VolumeState :=
  match st.archive with
  | none => (.err, { st with header_read := true,
                             reader_data_size := kHeaderChunkSize,
                             last_read_data_offset := 0,
                             error_message := some kArchiveNextHeaderErrorMsg })
  | some a =>
    match env[a.nextIdx]? with
    | some e => (.ok e, { st with header_read := true,
                                  reader_data_size := kHeaderChunkSize,
                                  last_read_data_offset := 0,
                                  archive := some ⟨a.nextIdx + 1, 0⟩,
                                  current_archive_entry := some e })
    | none => (.eof, { st with header_read := true,
                               reader_data_size := kHeaderChunkSize,
                               last_read_data_offset := 0,
                               current_archive_entry := none })

/-- Replay loop inside `DecompressData` (lines 238-252): iterate
`GetNextHeader` until an entry whose pathname equals the captured pathname of
the previously current entry reappears.  The Bool is `true` when the loop
exits `DecompressData` early: `GetNextHeader` failed (lines 239-243), or end
of archive was reached without finding the pathname, which installs
`kFileNotFound` and sets the sticky flag (lines 244-248). -/
def replayLoop (env : List Entry) (p : String) :
    Nat → VolumeState → Option (Bool × VolumeState)
  | 0, _ => none
  | fuel + 1, st =>
    match GetNextHeader env st with
    | (.err, st') => some (true, { st' with decompressed_error := true })
    | (.eof, st') => some (true, { st' with error_message := some kFileNotFound,
                                            decompressed_error := true })
    | (.ok e, st') =>
      if e.pathname = p then some (false, st')
      else replayLoop env p fuel st'

/-- Forward-skip loop of `DecompressData` (lines 260-287): while the request
offset is ahead of the forward cursor, set the chunk hint to the clamped gap,
decode up to `min(gap, kDummyBufferSize)` bytes into the dummy buffer and
discard them.  `PP_DCHECK(size != 0)` at line 278 is a debug-only assertion
and a no-op in release builds, so a 0-byte decode neither errors nor advances
the cursor.  The Bool is `true` on the early error return of lines 280-285;
decoding on a NULL codec handle is modelled as that error outcome. -/
def forwardSkip (env : List Entry) (offset : Int) :
    Nat → VolumeState → Option (Bool × VolumeState)
  | 0, _ => none
  | fuel + 1, st =>
    if offset > st.last_read_data_offset then
      let rds := max (min (offset - st.last_read_data_offset) kMaximumDataChunkSize) kMinimumDataChunkSize
      match st.archive with
      | none => some (true, { st with reader_data_size := rds,
                                      error_message := some kArchiveReadDataErrorMsg,
                                      decompressed_error := true })
      | some a =>
        let r := archiveReadData env a
          (min (offset - st.last_read_data_offset) kDummyBufferSize)
        if r.1 < 0 then
          some (true, { st with reader_data_size := rds, archive := some r.2.2,
                                error_message := some kArchiveReadDataErrorMsg,
                                decompressed_error := true })
        else
          forwardSkip env offset fuel
            { st with reader_data_size := rds, archive := some r.2.2,
                      last_read_data_offset := st.last_read_data_offset + r.1 }
    else some (false, st)

/-- Bounded decode loop of `DecompressData` (lines 304-316, a do-while):
decode into the window buffer until `left_length` bytes have accumulated or
the codec produces 0 bytes (end of entry data).  Returns
`(error?, accumulated bytes, codec state)`. -/
def decodeLoop (env : List Entry) :
    Nat → List Nat → Int → ArchiveState → Option (Bool × List Nat × ArchiveState)
  | 0, _, _, _ => none
  | fuel + 1, acc, leftLength, a =>
    let r := archiveReadData env a leftLength
    if r.1 < 0 then some (true, acc, r.2.2)
    else
      let acc' := acc ++ r.2.1
      let left' := leftLength - r.1
      if 0 < left' ∧ r.1 ≠ 0 then decodeLoop env fuel acc' left' r.2.2
      else some (false, acc', r.2.2)

/-- Bounded-decode phase of `DecompressData` (lines 289-324): clamp the
request to `kDecompressBufferSize`, set the chunk hint, run the decode
do-while loop and, on success, reset the window to the start of the buffer
with the accumulated bytes.  Decoding on a NULL codec handle is modelled as
the loop's error outcome. -/
def decodePhase (env : List Entry) (fuel : Nat) (length : Int)
    (st2 : VolumeState) : Option VolumeState :=
  let leftLength := min length kDecompressBufferSize
  let rds := max (min leftLength kMaximumDataChunkSize) kMinimumDataChunkSize
  match st2.archive with
  | none => some { st2 with reader_data_size := rds,
                            error_message := some kArchiveReadDataErrorMsg,
                            decompressed_error := true }
  | some a =>
    match decodeLoop env fuel [] leftLength a with
    | none => none
    | some (true, _, a') =>
      some { st2 with reader_data_size := rds, archive := some a',
                      error_message := some kArchiveReadDataErrorMsg,
                      decompressed_error := true }
    | some (false, acc, a') =>
      some { st2 with reader_data_size := rds, archive := some a',
                      decompressed_data_set := true,
                      decompressed_data_pos := 0,
                      window := acc }

/-- Forward-skip phase (lines 257-287) followed by the bounded-decode phase:
the part of `DecompressData` that runs after the backward branch. -/
def skipAndDecode (env : List Entry) (fuel : Nat) (offset length : Int)
    (st1 : VolumeState) : Option VolumeState :=
  match forwardSkip env offset fuel st1 with
  | none => none
  | some (true, st') => some st'
  | some (false, st2) => decodePhase env fuel length st2

/-- Body of `DecompressData(offset, length)` (lines 213-324), after the
header phase was switched off at line 211.  The backward branch captures the
current entry's pathname, releases the codec (`archive_read_free`, modelled
as succeeding; its failure branch at lines 218-223 is an external-codec
condition), resets the ByteSource (`reader()->Seek(0, SEEK_SET)`), re-runs
`Init()` and replays headers until the pathname reappears.  Calling the
backward branch without a current entry would dereference NULL in
`archive_entry_pathname` and is excluded by `ReadData`'s `PP_DCHECK`; the
model folds it into the sticky-error outcome. -/
def decompressBody (env : List Entry) (fuel : Nat) (offset length : Int)
    (st : VolumeState) : Option VolumeState :=
  let back : Option (Bool × VolumeState) :=
    if offset < st.last_read_data_offset then
      match st.current_archive_entry with
      | none => some (true, { st with decompressed_error := true })
      | some e =>
        replayLoop env e.pathname fuel
          (Init { st with archive := none,
                          free_count := st.free_count + 1,
                          reader_reset_count := st.reader_reset_count + 1 })
    else some (false, st)
  match back with
  | none => none
  | some (true, st') => some st'
  | some (false, st1) => skipAndDecode env fuel offset length st1

/-- Model of `DecompressData(offset, length)` (lines 206-324): switch off the
header phase (line 211, only headers are cached) and run `decompressBody`. -/
def DecompressData (env : List Entry) (fuel : Nat) (offset length : Int)
    (st : VolumeState) : Option VolumeState :=
  decompressBody env fuel offset length { st with header_read := false }

/-- Model of `ReadData(offset, length, buffer)` (lines 341-381): the count
actually served, the bytes the out-buffer exposes to the caller, and the new
state.  The `PP_DCHECK`s at lines 344-347 (positive length, a selected
entry) are debug-only; a missing current entry would dereference NULL at
line 350, modelled as `none`. -/
def ReadData (env : List Entry) (fuel : Nat) (offset length : Int)
    (st : VolumeState) : Option (Int × List Nat × VolumeState) :=
  match st.current_archive_entry with
  | none => none
  | some e =>
    if e.size ≤ offset then some (0, [], st)
    else
      match (if ¬st.decompressed_data_set ∨ st.last_read_data_offset ≠ offset ∨
                 st.window.length = 0 then
               DecompressData env fuel offset length st
             else some st) with
      | none => none
      | some st1 =>
        if st1.decompressed_error then some (kArchiveReadDataError, [], st1)
        else
          some (min (st1.window.length : Int) length,
            st1.window.take (min (st1.window.length : Int) length).toNat,
            { st1 with last_read_data_length := length,
                       window := st1.window.drop (min (st1.window.length : Int) length).toNat,
                       decompressed_data_pos :=
                         st1.decompressed_data_pos + min (st1.window.length : Int) length,
                       last_read_data_offset :=
                         st1.last_read_data_offset + min (st1.window.length : Int) length })

/-- Model of `MaybeDecompressAhead()` (lines 383-386). -/
def MaybeDecompressAhead (env : List Entry) (fuel : Nat) (st : VolumeState) :
    Option VolumeState :=
  if st.window.length = 0 then
    DecompressData env fuel st.last_read_data_offset st.last_read_data_length st
  else some st

/-- Modelled from the spec: `CleanupReader()` is declared in
`volume_archive.h`, which is not under `src/`.  Per the spec it
"unconditionally releases/closes the ByteSource", and per the spec's
ByteSource contract `close()` returns a status; the returned Bool is that
status.  `reader_release_failed` is ghost instrumentation recording that a
release failed. -/
def CleanupReader (readerOk : Bool) (st : VolumeState) : Bool × VolumeState :=
  (readerOk, { st with reader_closed := true,
                       reader_release_failed := st.reader_release_failed || !readerOk })

/-- Model of `Cleanup()` (lines 326-339).  `freeOk` is the outcome of the
external `archive_read_free` call, `readerOk` the outcome of closing the
ByteSource inside `CleanupReader`.  As in the source (`CleanupReader();`),
the status of the reader release is discarded. -/
def Cleanup (freeOk readerOk : Bool) (st : VolumeState) : Bool × VolumeState :=
  let r1 : Bool × VolumeState :=
    match st.archive with
    | some _ =>
      if freeOk then (true, { st with archive := none,
                                      free_count := st.free_count + 1 })
      else (false, { st with archive := none,
                             free_count := st.free_count + 1,
                             error_message := some kArchiveReadFreeErrorMsg })
    | none => (true, st)
  let r2 := CleanupReader readerOk r1.2
  (r1.1, r2.2)

/-- Libarchive status `ARCHIVE_FATAL` (-30), the value the custom callbacks
return to signal a fatal ByteSource failure. -/
def archiveFatal : Int := -30

/-- External `VolumeReader` (ByteSource) state for the pull callbacks:
content, current offset, and injectable failure outcomes for read / skip /
seek / close (per the spec's ByteSource contract, fatal I/O conditions are
reported via a distinguished failure status, modelled by the flags). -/
structure ReaderState where
  data : List Nat
  offset : Int
  readFail : Bool
  skipFail : Bool
  seekFail : Bool
  closeFail : Bool
deriving DecidableEq, Repr

/-- Model of `VolumeReader::Read(maxBytes)`: the available bytes at the
current offset, up to `maxBytes`, or `ARCHIVE_FATAL` on failure. -/
def readerRead (r : ReaderState) (n : Int) : Int × List Nat × ReaderState :=
  if r.readFail then (archiveFatal, [], r)
  else
    let bytes := (r.data.drop r.offset.toNat).take n.toNat
    ((bytes.length : Int), bytes, { r with offset := r.offset + bytes.length })

/-- Model of `VolumeReader::Skip(n)`: returns the count actually skipped;
0 in case of failure (per the comment at lines 86-87 of the source). -/
def readerSkip (r : ReaderState) (n : Int) : Int × ReaderState :=
  if r.skipFail then (0, r)
  else
    let k := min n ((r.data.length : Int) - r.offset)
    (k, { r with offset := r.offset + k })

/-- Model of `VolumeReader::Seek(offset, whence)`: the new offset, or
`ARCHIVE_FATAL` on failure (including a seek to a negative position). -/
def readerSeek (r : ReaderState) (offset : Int) (whence : Nat) :
    Int × ReaderState :=
  let base : Int :=
    if whence = 0 then 0
    else if whence = 1 then r.offset
    else (r.data.length : Int)
  if r.seekFail ∨ base + offset < 0 then (archiveFatal, r)
  else (base + offset, { r with offset := base + offset })

/-- State threaded through the pull callbacks: the two fields of
`VolumeArchiveLibarchive` the callbacks consult (`header_read_`,
`reader_data_size_`), the external reader and header cache, and the codec's
error channel (`error_set` records that `archive_set_error` installed a
message on `archive_object`). -/
structure BridgeState where
  header_read : Bool
  reader_data_size : Int
  reader : ReaderState
  cache : List (Int × List Nat)
  error_set : Bool
deriving DecidableEq, Repr

/-- Model of `HeaderCache::GetHeader(offset, &size)`: the cached header bytes
stored for exactly this offset, if any. -/
def cacheGet (c : List (Int × List Nat)) (offset : Int) : Option (List Nat) :=
  (c.find? (fun p => decide (p.1 = offset))).map (·.2)

/-- Model of `CustomArchiveRead` (lines 33-79): in header phase, serve a
cache hit and advance the reader past the cached bytes, failing fatally if
the skip does not advance by exactly the cached size; otherwise record the
current reader offset, read up to the hinted chunk size, and store the bytes
into the cache under the recorded offset when still in header phase and the
read produced more than 0 bytes.  Every fatal return first sets the codec
error channel (`SetLibarchiveErrorToVolumeReaderError`, lines 26-31). -/
def CustomArchiveRead (b : BridgeState) : Int × List Nat × BridgeState :=
  match (if b.header_read then cacheGet b.cache b.reader.offset else none) with
  | some hbytes =>
    let hsize : Int := hbytes.length
    let s := readerSkip b.reader hsize
    if s.1 ≠ hsize then (archiveFatal, [], { b with reader := s.2, error_set := true })
    else (hsize, hbytes, { b with reader := s.2 })
  | none =>
    let offset := b.reader.offset
    let r := readerRead b.reader b.reader_data_size
    if r.1 = archiveFatal then
      (archiveFatal, [], { b with reader := r.2.2, error_set := true })
    else if b.header_read ∧ 0 < r.1 then
      (r.1, r.2.1, { b with reader := r.2.2, cache := (offset, r.2.1) :: b.cache })
    else (r.1, r.2.1, { b with reader := r.2.2 })

/-- Model of `CustomArchiveSkip` (lines 81-89): delegates to the reader; a
failed skip returns 0 and no codec error is installed. -/
def CustomArchiveSkip (b : BridgeState) (request : Int) : Int × BridgeState :=
  let s := readerSkip b.reader request
  (s.1, { b with reader := s.2 })

/-- Model of `CustomArchiveSeek` (lines 91-103): delegates to the reader and
installs the codec error message exactly when the reader reports
`ARCHIVE_FATAL`. -/
def CustomArchiveSeek (b : BridgeState) (offset : Int) (whence : Nat) :
    Int × BridgeState :=
  if (readerSeek b.reader offset whence).1 = archiveFatal then
    ((readerSeek b.reader offset whence).1,
     { b with reader := (readerSeek b.reader offset whence).2, error_set := true })
  else
    ((readerSeek b.reader offset whence).1,
     { b with reader := (readerSeek b.reader offset whence).2 })

/-- Model of `VolumeReader::Close()`: `ARCHIVE_FATAL` on failure, 0
(`ARCHIVE_OK`) otherwise. -/
def readerClose (r : ReaderState) : Int :=
  if r.closeFail then archiveFatal else 0

/-- Model of `CustomArchiveClose` (lines 105-113): delegates to the reader's
close and installs the codec error message exactly when it reports
`ARCHIVE_FATAL`. -/
def CustomArchiveClose (b : BridgeState) : Int × BridgeState :=
  if readerClose b.reader = archiveFatal then
    (readerClose b.reader, { b with error_set := true })
  else (readerClose b.reader, b)

/-- Decompression window invariant stated by the claim and asserted by the
`PP_DCHECK` at lines 376-378: liveStart + liveLength never exceeds the fixed
buffer capacity. -/
def windowInv (st : VolumeState) : Prop :=
  st.decompressed_data_pos + (st.window.length : Int) ≤ kDecompressBufferSize

instance (st : VolumeState) : Decidable (windowInv st) := by
  unfold windowInv; infer_instance

/-- Concrete archive entry used by the witnesses: 12 declared and decodable
bytes. -/
def eA : Entry := ⟨"a", 12, false, 0, [0, 1, 2, 3, 4, 5, 6, 7, 8, 9, 10, 11]⟩

/-- Concrete archive entry used by the witnesses: 5 declared and decodable
bytes. -/
def eB : Entry := ⟨"b", 5, false, 0, [20, 21, 22, 23, 24]⟩

/-- Concrete two-entry archive used by the witnesses. -/
def env2 : List Entry := [eA, eB]

/-- State after `Init()` and one `GetNextHeader` on `env2`: entry `eA` is
current, nothing read yet. -/
def stA : VolumeState := (GetNextHeader env2 (Init initialState)).2

/-- State after additionally serving `ReadData(0, 10)` from `stA`: the
forward cursor is at 10 and the window is drained. -/
def stB : VolumeState := ((ReadData env2 40 0 10 stA).map (fun r => r.2.2)).getD initialState

/-- State with undelivered stale window bytes: after `ReadData(0, 5)` from
`stA` and a `MaybeDecompressAhead`, the window holds bytes 5..9 of `eA`. -/
def stStale : VolumeState :=
  ((ReadData env2 40 0 5 stA).bind fun r => MaybeDecompressAhead env2 40 r.2.2).getD initialState

/-- Copy of `stA` with the sticky decompression-error flag set. -/
def st3 : VolumeState := { stA with decompressed_error := true }

/-- Truncated entry: 10 declared bytes but only 3 decodable ones. -/
def eT : Entry := ⟨"t", 10, false, 0, [7, 7, 7]⟩

/-- Single-entry archive containing only the truncated entry `eT`. -/
def env5 : List Entry := [eT]

/-- State after `Init()` and one `GetNextHeader` on `env5`. -/
def st5 : VolumeState := (GetNextHeader env5 (Init initialState)).2

/-- State of `st5` at entry to the forward-skip loop of
`DecompressData` (header phase switched off). -/
def st5h : VolumeState := { st5 with header_read := false }

/-- Stuck state of the forward-skip loop on the truncated entry: all 3
decodable bytes were consumed, the cursor is at 3, and every further
iteration decodes 0 bytes and leaves the state unchanged. -/
def st5w : VolumeState :=
  { st5h with reader_data_size := 32768, archive := some ⟨1, 3⟩,
              last_read_data_offset := 3 }

/-- Result state of `ReadData(2, 1)` on `st3` (sticky flag set): the call
returns the error sentinel and this state. -/
def st3' : VolumeState :=
  ((ReadData env2 40 2 1 st3).map (fun p => p.2.2)).getD initialState

/-- Result state of `ReadData(0, 5)` on `stA`. -/
def stA5 : VolumeState :=
  ((ReadData env2 40 0 5 stA).map (fun p => p.2.2)).getD initialState

/-- Result state of the backward `DecompressData(2, 3)` on `stB`. -/
def stDD : VolumeState := (DecompressData env2 40 2 3 stB).getD initialState

/-- Concrete ByteSource with six bytes and no injected failures. -/
def rdr0 : ReaderState := ⟨[1, 2, 3, 4, 5, 6], 0, false, false, false, false⟩

/-- Bridge state in header phase with an empty header cache. -/
def bMiss : BridgeState := ⟨true, 4, rdr0, [], false⟩

/-- Bridge state in header phase with a cache hit at offset 0. -/
def bHit : BridgeState := ⟨true, 4, rdr0, [(0, [1, 2, 3])], false⟩

/-- Bridge state whose reader fails the next skip. -/
def bSkipFail : BridgeState := ⟨true, 4, { rdr0 with skipFail := true }, [(0, [1, 2, 3])], false⟩

/-- Bridge state whose reader fails the next read. -/
def bReadFail : BridgeState := ⟨true, 4, { rdr0 with readFail := true }, [], false⟩

/-- Bridge state whose reader fails the close. -/
def bCloseFail : BridgeState := ⟨true, 4, { rdr0 with closeFail := true }, [], false⟩

/-! ### Helper lemmas about the codec model and the internal loops -/

theorem archiveReadData_len (env : List Entry) (a : ArchiveState) (req : Int) :
    (archiveReadData env a req).1 = ((archiveReadData env a req).2.1.length : Int) ∧
    (archiveReadData env a req).2.1.length ≤ req.toNat ∧
    0 ≤ (archiveReadData env a req).1 := by
  obtain ⟨i, c⟩ := a
  cases i with
  | zero => simp [archiveReadData]
  | succ j =>
    cases hg : env[j]? with
    | none => simp [archiveReadData, hg]
    | some e =>
      simp only [archiveReadData, hg, List.length_take, List.length_drop]
      refine ⟨?_, ?_, ?_⟩ <;> omega

theorem replayLoop_some (env : List Entry) (p : String) :
    ∀ (fuel : Nat) (st st' : VolumeState) (flag : Bool),
    st.archive.isSome = true →
    replayLoop env p fuel st = some (flag, st') →
    st'.init_count = st.init_count ∧ st'.free_count = st.free_count ∧
    st'.reader_reset_count = st.reader_reset_count ∧
    st'.decompressed_data_set = st.decompressed_data_set ∧
    st'.window = st.window ∧
    st'.decompressed_data_pos = st.decompressed_data_pos ∧
    st'.archive.isSome = true ∧
    (flag = false → st'.decompressed_error = st.decompressed_error ∧
       ∃ e, st'.current_archive_entry = some e ∧ e.pathname = p) ∧
    (flag = true → st'.decompressed_error = true ∧
       st'.error_message = some kFileNotFound) := by
  intro fuel
  induction fuel with
  | zero => intro st st' flag _ hr; simp [replayLoop] at hr
  | succ fuel ih =>
    intro st st' flag hs hr
    obtain ⟨a, ha⟩ := Option.isSome_iff_exists.mp hs
    rw [replayLoop] at hr
    simp only [GetNextHeader, ha] at hr
    cases hg : env[a.nextIdx]? with
    | none =>
      rw [hg] at hr
      simp only [Option.some.injEq, Prod.mk.injEq] at hr
      obtain ⟨hflag, hst⟩ := hr
      subst hflag
      subst hst
      simp
    | some e =>
      simp only [hg] at hr
      by_cases hp : e.pathname = p
      · rw [if_pos hp] at hr
        simp only [Option.some.injEq, Prod.mk.injEq] at hr
        obtain ⟨hflag, hst⟩ := hr
        subst hflag
        subst hst
        simp [hp]
      · rw [if_neg hp] at hr
        have := ih _ st' flag (by simp) hr
        simpa using this

theorem forwardSkip_some (env : List Entry) (offset : Int) :
    ∀ (fuel : Nat) (st st' : VolumeState) (flag : Bool),
    forwardSkip env offset fuel st = some (flag, st') →
    st'.init_count = st.init_count ∧ st'.free_count = st.free_count ∧
    st'.reader_reset_count = st.reader_reset_count ∧
    st'.current_archive_entry = st.current_archive_entry ∧
    st'.decompressed_data_set = st.decompressed_data_set ∧
    st'.window = st.window ∧
    st'.decompressed_data_pos = st.decompressed_data_pos ∧
    st'.header_read = st.header_read ∧
    (flag = false → st'.decompressed_error = st.decompressed_error ∧
       st'.error_message = st.error_message) ∧
    (flag = true → st'.decompressed_error = true) := by
  intro fuel
  induction fuel with
  | zero => intro st st' flag hr; simp [forwardSkip] at hr
  | succ fuel ih =>
    intro st st' flag hr
    rw [forwardSkip] at hr
    by_cases hgt : offset > st.last_read_data_offset
    · rw [if_pos hgt] at hr
      cases ha : st.archive with
      | none =>
        simp only [ha] at hr
        simp only [Option.some.injEq, Prod.mk.injEq] at hr
        obtain ⟨hflag, hst⟩ := hr
        subst hflag
        subst hst
        simp
      | some a =>
        simp only [ha] at hr
        have hnn := (archiveReadData_len env a
          (min (offset - st.last_read_data_offset) kDummyBufferSize)).2.2
        rw [if_neg (by omega)] at hr
        have := ih _ st' flag hr
        simpa using this
    · rw [if_neg hgt] at hr
      simp only [Option.some.injEq, Prod.mk.injEq] at hr
      obtain ⟨hflag, hst⟩ := hr
      subst hflag
      subst hst
      simp

theorem replayLoop_found (env : List Entry) (p : String) (etgt : Entry)
    (hp : etgt.pathname = p) :
    ∀ (k idx fuel : Nat) (st : VolumeState),
    st.archive = some ⟨idx, 0⟩ →
    env[idx + k]? = some etgt →
    (∀ j, j < k → ∀ x, env[idx + j]? = some x → x.pathname ≠ p) →
    k < fuel →
    replayLoop env p fuel st =
      some (false, { st with header_read := true,
                             reader_data_size := kHeaderChunkSize,
                             last_read_data_offset := 0,
                             archive := some ⟨idx + k + 1, 0⟩,
                             current_archive_entry := some etgt }) := by
  intro k
  induction k with
  | zero =>
    intro idx fuel st ha hget _ hfuel
    obtain ⟨fuel, rfl⟩ : ∃ f, fuel = f + 1 := ⟨fuel - 1, by omega⟩
    rw [replayLoop]
    rw [show idx + 0 = idx from rfl] at hget
    simp only [GetNextHeader, ha, hget]
    rw [hp, if_pos rfl]
  | succ k ih =>
    intro idx fuel st ha hget hfirst hfuel
    obtain ⟨fuel, rfl⟩ : ∃ f, fuel = f + 1 := ⟨fuel - 1, by omega⟩
    have hlt : idx < env.length := by
      have := (List.getElem?_eq_some.mp hget).1
      omega
    obtain ⟨x, hx⟩ : ∃ x, env[idx]? = some x := ⟨env[idx], List.getElem?_eq_getElem hlt⟩
    have hxp : x.pathname ≠ p := hfirst 0 (by omega) x (by simpa using hx)
    rw [replayLoop]
    simp only [GetNextHeader, ha, hx]
    rw [if_neg hxp]
    have harith : idx + 1 + k = idx + (k + 1) := by omega
    have hrec := ih (idx + 1) fuel
      { st with header_read := true, reader_data_size := kHeaderChunkSize,
                last_read_data_offset := 0, archive := some ⟨idx + 1, 0⟩,
                current_archive_entry := some x }
      rfl (by rw [harith]; exact hget)
      (fun j hj y hy => hfirst (j + 1) (by omega) y
        (by rw [show idx + (j + 1) = idx + 1 + j from by omega]; exact hy))
      (by omega)
    rw [hrec]
    rw [show idx + 1 + k + 1 = idx + (k + 1) + 1 from by omega]

theorem replayLoop_notFound (env : List Entry) (p : String) :
    ∀ (fuel idx : Nat) (st : VolumeState),
    st.archive = some ⟨idx, 0⟩ →
    idx ≤ env.length →
    (∀ x, x ∈ env.drop idx → x.pathname ≠ p) →
    env.length - idx < fuel →
    replayLoop env p fuel st =
      some (true, { st with header_read := true,
                            reader_data_size := kHeaderChunkSize,
                            last_read_data_offset := 0,
                            archive := some ⟨env.length, 0⟩,
                            current_archive_entry := none,
                            error_message := some kFileNotFound,
                            decompressed_error := true }) := by
  intro fuel
  induction fuel with
  | zero => intro idx st _ _ _ h; omega
  | succ fuel ih =>
    intro idx st ha hle hnp hfuel
    rw [replayLoop]
    cases hg : env[idx]? with
    | none =>
      have hlen : env.length ≤ idx := by simpa using hg
      have hidx : idx = env.length := by omega
      simp only [GetNextHeader, ha, hg]
      subst hidx
      rw [← ha]
    | some x =>
      have hlt : idx < env.length := (List.getElem?_eq_some.mp hg).1
      have hmem : x ∈ env.drop idx := by
        have h0 : (env.drop idx)[0]? = some x := by
          rw [List.getElem?_drop]
          simpa using hg
        exact List.getElem?_mem h0
      have hxp : x.pathname ≠ p := hnp x hmem
      simp only [GetNextHeader, ha, hg]
      rw [if_neg hxp]
      have hsub : ∀ y, y ∈ env.drop (idx + 1) → y ∈ env.drop idx := by
        intro y hy
        obtain ⟨j, hj, hjy⟩ := List.getElem_of_mem hy
        have h1 : (env.drop (idx + 1))[j]? = some y := by
          rw [List.getElem?_eq_getElem hj, hjy]
        rw [List.getElem?_drop] at h1
        have h2 : (env.drop idx)[1 + j]? = some y := by
          rw [List.getElem?_drop, show idx + (1 + j) = idx + 1 + j from by omega]
          exact h1
        exact List.getElem?_mem h2
      have hrec := ih (idx + 1)
        { st with header_read := true, reader_data_size := kHeaderChunkSize,
                  last_read_data_offset := 0, archive := some ⟨idx + 1, 0⟩,
                  current_archive_entry := some x }
        rfl (by omega) (fun y hy => hnp y (hsub y hy)) (by omega)
      rw [hrec]

theorem forwardSkip_reaches (env : List Entry) (offset : Int) (i : Nat) (d : Entry)
    (hd : env[i]? = some d) :
    ∀ (fuel : Nat) (c : Nat) (st : VolumeState),
    st.archive = some ⟨i + 1, c⟩ →
    st.last_read_data_offset = (c : Int) →
    (c : Int) ≤ offset → offset ≤ (d.data.length : Int) →
    (offset - c).toNat < fuel →
    ∃ rds, forwardSkip env offset fuel st =
      some (false, { st with reader_data_size := rds,
                             archive := some ⟨i + 1, offset.toNat⟩,
                             last_read_data_offset := offset }) := by
  intro fuel
  induction fuel with
  | zero => intro c st _ _ _ _ h; omega
  | succ fuel ih =>
    intro c st ha hcur hco hod hfuel
    by_cases hgt : offset > st.last_read_data_offset
    · rw [forwardSkip, if_pos hgt]
      rw [hcur] at hgt
      rw [hcur]
      have hkd : kDummyBufferSize = 524288 := rfl
      have hread : archiveReadData env ⟨i + 1, c⟩ (min (offset - (c : Int)) kDummyBufferSize) =
          (((min (min (offset - (c : Int)) kDummyBufferSize).toNat
              (d.data.length - c) : Nat) : Int),
           (d.data.drop c).take (min (min (offset - (c : Int)) kDummyBufferSize).toNat
              (d.data.length - c)),
           ⟨i + 1, c + min (min (offset - (c : Int)) kDummyBufferSize).toNat
              (d.data.length - c)⟩) := by
        simp [archiveReadData, hd]
      simp only [ha, hread]
      have hn1 : 1 ≤ min (min (offset - (c : Int)) kDummyBufferSize).toNat
          (d.data.length - c) := by
        omega
      rw [if_neg (by omega)]
      refine ih (c + min (min (offset - (c : Int)) kDummyBufferSize).toNat
          (d.data.length - c)) _ rfl ?_ ?_ hod ?_
      · show (c : Int) + ((min (min (offset - (c : Int)) kDummyBufferSize).toNat
            (d.data.length - c) : Nat) : Int) = _
        push_cast
        ring
      · push_cast
        omega
      · omega
    · have heq : offset = (c : Int) := by omega
      refine ⟨st.reader_data_size, ?_⟩
      rw [forwardSkip, if_neg hgt, heq, Int.toNat_natCast, ← ha, ← hcur]

theorem decodeLoop_spec (env : List Entry) (i : Nat) (d : Entry)
    (hd : env[i]? = some d) (off : Nat) (left : Int) :
    ∀ (fuel : Nat), 2 ≤ fuel →
    decodeLoop env fuel [] left ⟨i + 1, off⟩ =
      some (false, (d.data.drop off).take (min left.toNat (d.data.length - off)),
            ⟨i + 1, off + min left.toNat (d.data.length - off)⟩) := by
  intro fuel hfuel
  obtain ⟨f, rfl⟩ : ∃ f, fuel = f + 2 := ⟨fuel - 2, by omega⟩
  rw [decodeLoop]
  have hread : archiveReadData env ⟨i + 1, off⟩ left =
      (((min left.toNat (d.data.length - off) : Nat) : Int),
       (d.data.drop off).take (min left.toNat (d.data.length - off)),
       ⟨i + 1, off + min left.toNat (d.data.length - off)⟩) := by
    simp [archiveReadData, hd]
  rw [hread]
  rw [if_neg (by omega)]
  by_cases hc : 0 < left - ((min left.toNat (d.data.length - off) : Nat) : Int) ∧
      ((min left.toNat (d.data.length - off) : Nat) : Int) ≠ 0
  · rw [if_pos hc]
    have hrem : min left.toNat (d.data.length - off) = d.data.length - off := by omega
    have hlen : off + min left.toNat (d.data.length - off) = d.data.length := by omega
    rw [hlen, decodeLoop]
    have hread2 : archiveReadData env ⟨i + 1, d.data.length⟩
        (left - ((min left.toNat (d.data.length - off) : Nat) : Int)) =
        (0, [], ⟨i + 1, d.data.length⟩) := by
      simp [archiveReadData, hd]
    rw [hread2]
    rw [if_neg (by omega)]
    rw [if_neg (by simp)]
    simp
  · rw [if_neg hc]
    simp

theorem decodeLoop_len (env : List Entry) :
    ∀ (fuel : Nat) (acc : List Nat) (left : Int) (a : ArchiveState)
      (flag : Bool) (acc' : List Nat) (a' : ArchiveState),
    decodeLoop env fuel acc left a = some (flag, acc', a') →
    acc'.length ≤ acc.length + left.toNat := by
  intro fuel
  induction fuel with
  | zero => intro acc left a flag acc' a' h; simp [decodeLoop] at h
  | succ fuel ih =>
    intro acc left a flag acc' a' h
    rw [decodeLoop] at h
    obtain ⟨h1, h2, h3⟩ := archiveReadData_len env a left
    by_cases hneg : (archiveReadData env a left).1 < 0
    · rw [if_pos hneg] at h
      simp only [Option.some.injEq, Prod.mk.injEq] at h
      obtain ⟨_, hacc, _⟩ := h
      subst hacc
      omega
    · rw [if_neg hneg] at h
      by_cases hc : 0 < left - (archiveReadData env a left).1 ∧
          (archiveReadData env a left).1 ≠ 0
      · rw [if_pos hc] at h
        have hrec := ih _ _ _ _ _ _ h
        rw [List.length_append] at hrec
        omega
      · rw [if_neg hc] at h
        simp only [Option.some.injEq, Prod.mk.injEq] at h
        obtain ⟨_, hacc, _⟩ := h
        subst hacc
        rw [List.length_append]
        omega

theorem decodePhase_cases (env : List Entry) (fuel : Nat) (length : Int)
    (st2 st' : VolumeState) (h : decodePhase env fuel length st2 = some st') :
    st'.init_count = st2.init_count ∧
    st'.current_archive_entry = st2.current_archive_entry ∧
    st'.header_read = st2.header_read ∧
    st'.free_count = st2.free_count ∧
    st'.reader_reset_count = st2.reader_reset_count ∧
    (st'.decompressed_error = st2.decompressed_error ∨ st'.decompressed_error = true) ∧
    ((st'.window = st2.window ∧ st'.decompressed_data_pos = st2.decompressed_data_pos) ∨
     (st'.decompressed_data_pos = 0 ∧
        (st'.window.length : Int) ≤ max (min length kDecompressBufferSize) 0 ∧
        st'.decompressed_error = st2.decompressed_error)) := by
  unfold decodePhase at h
  cases ha : st2.archive with
  | none =>
    simp only [ha] at h
    simp only [Option.some.injEq] at h
    subst h
    simp
  | some a =>
    simp only [ha] at h
    rcases hdec : decodeLoop env fuel [] (min length kDecompressBufferSize) a with
      _ | ⟨flag, acc, a'⟩
    · rw [hdec] at h; simp at h
    · rw [hdec] at h
      have hlen := decodeLoop_len env fuel [] (min length kDecompressBufferSize) a flag acc a' hdec
      cases flag with
      | true =>
        simp only [Option.some.injEq] at h
        subst h
        simp
      | false =>
        simp only [Option.some.injEq] at h
        subst h
        refine ⟨rfl, rfl, rfl, rfl, rfl, Or.inl rfl, Or.inr ⟨rfl, ?_, rfl⟩⟩
        show (acc.length : Int) ≤ max (min length kDecompressBufferSize) 0
        simp only [List.length_nil, Nat.zero_add] at hlen
        omega

theorem skipAndDecode_cases (env : List Entry) (fuel : Nat) (offset length : Int)
    (st1 st' : VolumeState) (h : skipAndDecode env fuel offset length st1 = some st') :
    st'.init_count = st1.init_count ∧
    st'.current_archive_entry = st1.current_archive_entry ∧
    st'.header_read = st1.header_read ∧
    st'.free_count = st1.free_count ∧
    st'.reader_reset_count = st1.reader_reset_count ∧
    (st'.decompressed_error = st1.decompressed_error ∨ st'.decompressed_error = true) ∧
    ((st'.window = st1.window ∧ st'.decompressed_data_pos = st1.decompressed_data_pos) ∨
     (st'.decompressed_data_pos = 0 ∧
        (st'.window.length : Int) ≤ max (min length kDecompressBufferSize) 0)) := by
  unfold skipAndDecode at h
  rcases hskip : forwardSkip env offset fuel st1 with _ | ⟨flag, st2⟩
  · rw [hskip] at h; simp at h
  · rw [hskip] at h
    obtain ⟨f1, f2, f3, f4, f5, f6, f7, f8, f9, f10⟩ :=
      forwardSkip_some env offset fuel st1 st2 flag hskip
    cases flag with
    | true =>
      simp only [Option.some.injEq] at h
      subst h
      exact ⟨f1, f4, f8, f2, f3, Or.inr (f10 rfl), Or.inl ⟨f6, f7⟩⟩
    | false =>
      obtain ⟨g1, g2, g3, g4, g5, g6, g7⟩ := decodePhase_cases env fuel length st2 st' h
      obtain ⟨e1, e2⟩ := f9 rfl
      refine ⟨g1.trans f1, g2.trans f4, g3.trans f8, g4.trans f2, g5.trans f3, ?_, ?_⟩
      · rcases g6 with hg | hg
        · exact Or.inl (hg.trans e1)
        · exact Or.inr hg
      · rcases g7 with ⟨hw, hp⟩ | ⟨hp, hb, _⟩
        · exact Or.inl ⟨hw.trans f6, hp.trans f7⟩
        · exact Or.inr ⟨hp, hb⟩

theorem decompressBody_cases (env : List Entry) (fuel : Nat) (offset length : Int)
    (st st' : VolumeState) (h : decompressBody env fuel offset length st = some st') :
    (¬ offset < st.last_read_data_offset →
       st'.init_count = st.init_count ∧ st'.free_count = st.free_count ∧
       st'.reader_reset_count = st.reader_reset_count ∧
       st'.current_archive_entry = st.current_archive_entry) ∧
    (st.decompressed_error = true → st'.decompressed_error = true) ∧
    ((st'.window = st.window ∧ st'.decompressed_data_pos = st.decompressed_data_pos) ∨
     (st'.decompressed_data_pos = 0 ∧
        (st'.window.length : Int) ≤ max (min length kDecompressBufferSize) 0)) := by
  unfold decompressBody at h
  by_cases hbo : offset < st.last_read_data_offset
  · rw [if_pos hbo] at h
    refine ⟨fun hn => absurd hbo hn, ?_⟩
    cases hc : st.current_archive_entry with
    | none =>
      simp only [hc] at h
      simp only [Option.some.injEq] at h
      subst h
      simp
    | some e =>
      simp only [hc] at h
      rcases hrep : replayLoop env e.pathname fuel
          (Init { st with archive := none,
                          current_archive_entry := some e,
                          free_count := st.free_count + 1,
                          reader_reset_count := st.reader_reset_count + 1 }) with
        _ | ⟨flag, str⟩
      · rw [hrep] at h; simp at h
      · rw [hrep] at h
        obtain ⟨r1, r2, r3, r4, r5, r6, r7, r8, r9⟩ :=
          replayLoop_some env e.pathname fuel _ str flag (by simp [Init]) hrep
        cases flag with
        | true =>
          simp only [Option.some.injEq] at h
          subst h
          exact ⟨fun _ => (r9 rfl).1, Or.inl ⟨r5, r6⟩⟩
        | false =>
          obtain ⟨s1, s2, s3, s4, s5, s6, s7⟩ :=
            skipAndDecode_cases env fuel offset length str st' h
          refine ⟨?_, ?_⟩
          · intro he
            rcases s6 with hg | hg
            · rw [hg, (r8 rfl).1]
              simp [Init, he]
            · exact hg
          · rcases s7 with ⟨hw, hp⟩ | hg
            · exact Or.inl ⟨(hw.trans r5).trans (by simp [Init]),
                (hp.trans r6).trans (by simp [Init])⟩
            · exact Or.inr hg
  · rw [if_neg hbo] at h
    obtain ⟨s1, s2, s3, s4, s5, s6, s7⟩ :=
      skipAndDecode_cases env fuel offset length st st' h
    refine ⟨fun _ => ⟨s1, s4, s5, s2⟩, ?_, s7⟩
    intro he
    rcases s6 with hg | hg
    · rw [hg, he]
    · exact hg

theorem DecompressData_cases (env : List Entry) (fuel : Nat) (offset length : Int)
    (st st' : VolumeState) (h : DecompressData env fuel offset length st = some st') :
    (¬ offset < st.last_read_data_offset →
       st'.init_count = st.init_count ∧ st'.free_count = st.free_count ∧
       st'.reader_reset_count = st.reader_reset_count ∧
       st'.current_archive_entry = st.current_archive_entry) ∧
    (st.decompressed_error = true → st'.decompressed_error = true) ∧
    ((st'.window = st.window ∧ st'.decompressed_data_pos = st.decompressed_data_pos) ∨
     (st'.decompressed_data_pos = 0 ∧
        (st'.window.length : Int) ≤ max (min length kDecompressBufferSize) 0)) := by
  unfold DecompressData at h
  exact decompressBody_cases env fuel offset length { st with header_read := false } st' h

theorem kDecompressBufferSize_pos : (0 : Int) < kDecompressBufferSize := by decide

theorem ReadData_cases (env : List Entry) (fuel : Nat) (offset length : Int)
    (st : VolumeState) (r : Int) (bs : List Nat) (st' : VolumeState)
    (h : ReadData env fuel offset length st = some (r, bs, st')) :
    (st.last_read_data_offset ≤ offset → st'.init_count = st.init_count) ∧
    (st.decompressed_error = true → st'.decompressed_error = true ∧
       (∀ e, st.current_archive_entry = some e → offset < e.size →
          r = kArchiveReadDataError)) ∧
    (windowInv st → windowInv st') := by
  have hcap : kDecompressBufferSize = 524288 := rfl
  unfold ReadData at h
  rcases hc : st.current_archive_entry with _ | e
  · rw [hc] at h; simp at h
  · simp only [hc] at h
    by_cases hsz : e.size ≤ offset
    · rw [if_pos hsz] at h
      simp only [Option.some.injEq, Prod.mk.injEq] at h
      obtain ⟨hr, _, hst⟩ := h
      subst hst
      refine ⟨fun _ => rfl, fun he => ⟨he, ?_⟩, fun hv => hv⟩
      intro e' he' hlt
      injection he' with hee
      subst hee
      omega
    · rw [if_neg hsz] at h
      have hserve : ∀ st1 : VolumeState,
          (st.last_read_data_offset ≤ offset → st1.init_count = st.init_count) →
          (st.decompressed_error = true → st1.decompressed_error = true) →
          (windowInv st → windowInv st1) →
          ((if st1.decompressed_error then some (kArchiveReadDataError, ([] : List Nat), st1)
            else
              some (min (st1.window.length : Int) length,
                st1.window.take (min (st1.window.length : Int) length).toNat,
                { st1 with last_read_data_length := length,
                           window := st1.window.drop (min (st1.window.length : Int) length).toNat,
                           decompressed_data_pos :=
                             st1.decompressed_data_pos + min (st1.window.length : Int) length,
                           last_read_data_offset :=
                             st1.last_read_data_offset + min (st1.window.length : Int) length }))
            = some (r, bs, st')) →
          (st.last_read_data_offset ≤ offset → st'.init_count = st.init_count) ∧
          (st.decompressed_error = true → st'.decompressed_error = true ∧
             r = kArchiveReadDataError) ∧
          (windowInv st → windowInv st') := by
        intro st1 hinit herr hinv hmain
        by_cases hflag : st1.decompressed_error
        · rw [if_pos hflag] at hmain
          simp only [Option.some.injEq, Prod.mk.injEq] at hmain
          obtain ⟨hr, _, hst⟩ := hmain
          subst hst
          exact ⟨hinit, fun he => ⟨hflag, hr.symm⟩, hinv⟩
        · rw [if_neg hflag] at hmain
          simp only [Option.some.injEq, Prod.mk.injEq] at hmain
          obtain ⟨hr, _, hst⟩ := hmain
          subst hst
          refine ⟨fun hle => hinit hle, fun he => absurd (herr he) hflag, fun hv => ?_⟩
          have hv1 := hinv hv
          unfold windowInv at hv1 ⊢
          have hdrop := List.length_drop
            (min (st1.window.length : Int) length).toNat st1.window
          show st1.decompressed_data_pos + min (st1.window.length : Int) length +
              ((st1.window.drop (min (st1.window.length : Int) length).toNat).length : Int) ≤
              kDecompressBufferSize
          rw [hdrop]
          omega
      have hfin : (st.last_read_data_offset ≤ offset → st'.init_count = st.init_count) ∧
          (st.decompressed_error = true → st'.decompressed_error = true ∧
             r = kArchiveReadDataError) ∧
          (windowInv st → windowInv st') := by
        by_cases hcond : ¬st.decompressed_data_set ∨ st.last_read_data_offset ≠ offset ∨
            st.window.length = 0
        · rw [if_pos hcond] at h
          rcases hdd : DecompressData env fuel offset length st with _ | st1
          · rw [hdd] at h; simp at h
          · rw [hdd] at h
            obtain ⟨d1, d2, d3⟩ := DecompressData_cases env fuel offset length st st1 hdd
            refine hserve st1 (fun hle => (d1 (by omega)).1) d2 ?_ h
            intro hv
            unfold windowInv at hv ⊢
            rcases d3 with ⟨hw, hp⟩ | ⟨hp, hb⟩
            · rw [hw, hp]; exact hv
            · rw [hp]; omega
        · rw [if_neg hcond] at h
          exact hserve st (fun _ => rfl) (fun he => he) (fun hv => hv) h
      exact ⟨hfin.1, fun he => ⟨(hfin.2.1 he).1, fun e2 he2 _ => (hfin.2.1 he).2⟩, hfin.2.2⟩

theorem skipAndDecode_of_skip (env : List Entry) (fuel : Nat) (offset length : Int)
    (st1 st2 : VolumeState)
    (h : forwardSkip env offset fuel st1 = some (false, st2)) :
    skipAndDecode env fuel offset length st1 = decodePhase env fuel length st2 := by
  unfold skipAndDecode
  rw [h]

theorem decodePhase_spec (env : List Entry) (i : Nat) (d : Entry)
    (hd : env[i]? = some d) (fuel : Nat) (hfuel : 2 ≤ fuel) (length : Int)
    (off : Nat) (st2 : VolumeState) (ha : st2.archive = some ⟨i + 1, off⟩) :
    decodePhase env fuel length st2 =
      some { st2 with
             reader_data_size :=
               max (min (min length kDecompressBufferSize) kMaximumDataChunkSize)
                   kMinimumDataChunkSize,
             archive := some ⟨i + 1,
               off + min (min length kDecompressBufferSize).toNat (d.data.length - off)⟩,
             decompressed_data_set := true,
             decompressed_data_pos := 0,
             window := (d.data.drop off).take
               (min (min length kDecompressBufferSize).toNat (d.data.length - off)) } := by
  unfold decodePhase
  simp only [ha]
  rw [decodeLoop_spec env i d hd off (min length kDecompressBufferSize) fuel hfuel]

theorem DecompressData_backward_found (env : List Entry) (fuel : Nat)
    (offset length : Int) (st st1 : VolumeState) (e : Entry)
    (hback : offset < st.last_read_data_offset)
    (hcur : st.current_archive_entry = some e)
    (hrep : replayLoop env e.pathname fuel
      (Init { st with header_read := false, archive := none,
                      current_archive_entry := some e,
                      free_count := st.free_count + 1,
                      reader_reset_count := st.reader_reset_count + 1 }) =
        some (false, st1)) :
    DecompressData env fuel offset length st =
      skipAndDecode env fuel offset length st1 := by
  unfold DecompressData decompressBody
  rw [if_pos hback]
  simp only [hcur, hrep]

theorem DecompressData_backward_stop (env : List Entry) (fuel : Nat)
    (offset length : Int) (st st1 : VolumeState) (e : Entry)
    (hback : offset < st.last_read_data_offset)
    (hcur : st.current_archive_entry = some e)
    (hrep : replayLoop env e.pathname fuel
      (Init { st with header_read := false, archive := none,
                      current_archive_entry := some e,
                      free_count := st.free_count + 1,
                      reader_reset_count := st.reader_reset_count + 1 }) =
        some (true, st1)) :
    DecompressData env fuel offset length st = some st1 := by
  unfold DecompressData decompressBody
  rw [if_pos hback]
  simp only [hcur, hrep]

theorem ReadData_serve_of_decompress (env : List Entry) (fuel : Nat)
    (offset length : Int) (st st1 : VolumeState) (e : Entry)
    (hcur : st.current_archive_entry = some e) (hsz : ¬ e.size ≤ offset)
    (hcond : ¬st.decompressed_data_set ∨ st.last_read_data_offset ≠ offset ∨
       st.window.length = 0)
    (hdd : DecompressData env fuel offset length st = some st1)
    (hflag : st1.decompressed_error = false) :
    ReadData env fuel offset length st =
      some (min (st1.window.length : Int) length,
        st1.window.take (min (st1.window.length : Int) length).toNat,
        { st1 with last_read_data_length := length,
                   window := st1.window.drop (min (st1.window.length : Int) length).toNat,
                   decompressed_data_pos :=
                     st1.decompressed_data_pos + min (st1.window.length : Int) length,
                   last_read_data_offset :=
                     st1.last_read_data_offset + min (st1.window.length : Int) length }) := by
  unfold ReadData
  simp only [hcur]
  rw [if_neg hsz, if_pos hcond]
  simp only [hdd]
  rw [if_neg (by simp [hflag])]

theorem DecompressData_backward_none (env : List Entry) (fuel : Nat)
    (offset length : Int) (st : VolumeState) (e : Entry)
    (hback : offset < st.last_read_data_offset)
    (hcur : st.current_archive_entry = some e)
    (hrep : replayLoop env e.pathname fuel
      (Init { st with header_read := false, archive := none,
                      current_archive_entry := some e,
                      free_count := st.free_count + 1,
                      reader_reset_count := st.reader_reset_count + 1 }) = none) :
    DecompressData env fuel offset length st = none := by
  unfold DecompressData decompressBody
  rw [if_pos hback]
  simp only [hcur, hrep]

theorem ReadData_serve_from_window (env : List Entry) (fuel : Nat)
    (offset length : Int) (st : VolumeState) (e : Entry)
    (hcur : st.current_archive_entry = some e) (hsz : ¬ e.size ≤ offset)
    (hset : st.decompressed_data_set = true)
    (hoff : st.last_read_data_offset = offset)
    (hw : st.window.length ≠ 0)
    (hflag : st.decompressed_error = false) :
    ReadData env fuel offset length st =
      some (min (st.window.length : Int) length,
        st.window.take (min (st.window.length : Int) length).toNat,
        { st with last_read_data_length := length,
                  window := st.window.drop (min (st.window.length : Int) length).toNat,
                  decompressed_data_pos :=
                    st.decompressed_data_pos + min (st.window.length : Int) length,
                  last_read_data_offset :=
                    st.last_read_data_offset + min (st.window.length : Int) length }) := by
  unfold ReadData
  simp only [hcur]
  rw [if_neg hsz, if_neg (by push_neg; exact ⟨hset, hoff, hw⟩)]
  show (if st.decompressed_error = true then some (kArchiveReadDataError, [], st)
        else some (min (st.window.length : Int) length,
          st.window.take (min (st.window.length : Int) length).toNat,
          { st with last_read_data_length := length,
                    window := st.window.drop (min (st.window.length : Int) length).toNat,
                    decompressed_data_pos :=
                      st.decompressed_data_pos + min (st.window.length : Int) length,
                    last_read_data_offset :=
                      st.last_read_data_offset + min (st.window.length : Int) length })) = _
  rw [if_neg (by simp [hflag]), hcur]

/-! ### Claim theorems -/

/-- C2 (amended): a `ReadData` call whose offset is at or beyond the current
forward cursor never reinitializes the codec (in particular any monotone
sequence of reads that always resumes at the cursor is reinit-free); and a
`ReadData` call with offset strictly below the cursor, on an entry whose
first pathname occurrence in the archive carries the same data, triggers
exactly one reinit-and-replay cycle and still returns the correct bytes:
`min(length, kDecompressBufferSize, size - offset)` bytes of the entry's
decoded stream starting at `offset`. -/
theorem c2_cursor_reinit_and_correct_bytes :
    (∀ (env : List Entry) (fuel : Nat) (offset length : Int) (st : VolumeState)
       (r : Int) (bs : List Nat) (st' : VolumeState),
       st.last_read_data_offset ≤ offset →
       ReadData env fuel offset length st = some (r, bs, st') →
       st'.init_count = st.init_count) ∧
    (∀ (env : List Entry) (fuel : Nat) (offset length : Int) (st : VolumeState)
       (e : Entry) (k : Nat),
       st.current_archive_entry = some e →
       env[k]? = some e →
       (∀ j, j < k → ∀ x, env[j]? = some x → x.pathname ≠ e.pathname) →
       offset < st.last_read_data_offset →
       st.decompressed_error = false →
       0 < length → 0 ≤ offset → offset < e.size →
       (e.data.length : Int) = e.size →
       env.length + offset.toNat + 2 ≤ fuel →
       ∃ st', ReadData env fuel offset length st =
           some (min length (min kDecompressBufferSize (e.size - offset)),
             (e.data.drop offset.toNat).take
               (min length (min kDecompressBufferSize (e.size - offset))).toNat,
             st') ∧
         st'.init_count = st.init_count + 1 ∧
         st'.last_read_data_offset =
           offset + min length (min kDecompressBufferSize (e.size - offset))) := by
  constructor
  · intro env fuel offset length st r bs st' hle h
    exact (ReadData_cases env fuel offset length st r bs st' h).1 hle
  · intro env fuel offset length st e k hcur hget hfirst hback herr hlen hoff hsz hdata hfuel
    have hcapv : kDecompressBufferSize = 524288 := rfl
    have hget0 : env[0 + k]? = some e := by simpa using hget
    have hfirst0 : ∀ j, j < k → ∀ x, env[0 + j]? = some x → x.pathname ≠ e.pathname := by
      intro j hj x hx
      exact hfirst j hj x (by simpa using hx)
    have hkfuel : k < fuel := by
      have := (List.getElem?_eq_some.mp hget).1
      omega
    have hrep := replayLoop_found env e.pathname e rfl k 0 fuel
      (Init { st with header_read := false, archive := none,
                      current_archive_entry := some e,
                      free_count := st.free_count + 1,
                      reader_reset_count := st.reader_reset_count + 1 })
      rfl hget0 hfirst0 hkfuel
    simp only [Nat.zero_add] at hrep
    have hdd1 := DecompressData_backward_found env fuel offset length st _ e hback hcur hrep
    obtain ⟨rds1, hskip⟩ := forwardSkip_reaches env offset k e hget fuel 0
      { Init { st with header_read := false, archive := none,
                       current_archive_entry := some e,
                       free_count := st.free_count + 1,
                       reader_reset_count := st.reader_reset_count + 1 } with
        header_read := true, reader_data_size := kHeaderChunkSize,
        last_read_data_offset := 0, archive := some ⟨k + 1, 0⟩,
        current_archive_entry := some e }
      rfl (by simp) (by simpa using hoff) (by omega) (by omega)
    rw [skipAndDecode_of_skip env fuel offset length _ _ hskip] at hdd1
    rw [decodePhase_spec env k e hget fuel (by omega) length offset.toNat _ rfl] at hdd1
    have hserve := ReadData_serve_of_decompress env fuel offset length st _ e hcur
      (by omega) (Or.inr (Or.inl (by omega))) hdd1 herr
    have hm1 : ((e.data.drop offset.toNat).take
        (min (min length kDecompressBufferSize).toNat
          (e.data.length - offset.toNat))).length =
        min (min length kDecompressBufferSize).toNat (e.data.length - offset.toNat) := by
      rw [List.length_take, List.length_drop]
      omega
    rw [hm1] at hserve
    have hminNat : (min ((min (min length kDecompressBufferSize).toNat
        (e.data.length - offset.toNat) : Nat) : Int) length).toNat =
        min (min length kDecompressBufferSize).toNat (e.data.length - offset.toNat) := by
      omega
    rw [hminNat, List.take_take, Nat.min_self] at hserve
    have hM : min ((min (min length kDecompressBufferSize).toNat
        (e.data.length - offset.toNat) : Nat) : Int) length =
        min length (min kDecompressBufferSize (e.size - offset)) := by
      omega
    rw [hM] at hserve
    have hMt : (min length (min kDecompressBufferSize (e.size - offset))).toNat =
        min (min length kDecompressBufferSize).toNat (e.data.length - offset.toNat) := by
      omega
    simp only [hMt]
    exact ⟨_, hserve, rfl, rfl⟩

/-- Counterexample to C2 as stated: a sequence of ReadAt calls at strictly
increasing offsets (0, then 5) in which the second call nevertheless
reinitializes the codec (`init_count` grows by one), because the first call
advanced the forward cursor to 10 > 5. -/
theorem c2_counterexample :
    ((ReadData env2 40 0 10 stA).map (fun r => r.2.2.init_count) = some stA.init_count) ∧
    (((ReadData env2 40 0 10 stA).bind (fun r => ReadData env2 40 5 1 r.2.2)).map
        (fun r => r.2.2.init_count) = some (stA.init_count + 1)) ∧
    (0 : Int) < 5 := by decide

/-- Witness for C2 (amended) at a concrete input: reading `(2, 3)` on entry
`eA` after the cursor reached 10 triggers exactly one reinit and returns
bytes 2, 3, 4. -/
theorem c2_cursor_reinit_and_correct_bytes_witness :
    ∃ st', ReadData env2 40 2 3 stB =
        some (min 3 (min kDecompressBufferSize (eA.size - 2)),
          (eA.data.drop (2 : Int).toNat).take
            (min 3 (min kDecompressBufferSize (eA.size - 2))).toNat, st') ∧
      st'.init_count = stB.init_count + 1 ∧
      st'.last_read_data_offset = 2 + min 3 (min kDecompressBufferSize (eA.size - 2)) :=
  c2_cursor_reinit_and_correct_bytes.2 env2 40 2 3 stB eA 0 (by decide) (by decide)
    (fun j hj x _ => absurd hj (by omega)) (by decide) (by decide) (by decide)
    (by decide) (by decide) (by decide) (by decide)

/-- C8: a `ReadData` call whose offset is at least the current entry's
declared size returns 0 — the end-of-entry sentinel, not an error — without
invoking decompression: the state is returned unchanged. -/
theorem c8_read_past_end_returns_zero (env : List Entry) (fuel : Nat)
    (offset length : Int) (st : VolumeState) (e : Entry)
    (hcur : st.current_archive_entry = some e) (hoff : e.size ≤ offset) :
    ReadData env fuel offset length st = some (0, [], st) := by
  unfold ReadData
  simp only [hcur]
  rw [if_pos hoff]

/-- Witness for C8 at a concrete input: entry `eA` has size 12 and the read
offset is 12. -/
theorem c8_read_past_end_returns_zero_witness :
    ReadData env2 40 12 5 stA = some (0, [], stA) :=
  c8_read_past_end_returns_zero env2 40 12 5 stA eA (by decide) (by decide)

/-- C9 (amended): `Cleanup` releases the codec (recording a failure in its
result without aborting), unconditionally releases the ByteSource afterwards,
and returns success if and only if the codec release step succeeded — the
ByteSource release status is discarded; a second `Cleanup` performs no codec
release (`free_count` unchanged, the handle is already NULL), returns
success, and does not regress the first call's effects. -/
theorem c9_cleanup_best_effort (freeOk readerOk : Bool) (st : VolumeState) :
    (Cleanup freeOk readerOk st).2.reader_closed = true ∧
    (Cleanup freeOk readerOk st).2.archive = none ∧
    ((Cleanup freeOk readerOk st).1 = true ↔ (st.archive = none ∨ freeOk = true)) ∧
    (∀ f2 r2, (Cleanup f2 r2 (Cleanup freeOk readerOk st).2).1 = true ∧
       (Cleanup f2 r2 (Cleanup freeOk readerOk st).2).2.free_count =
         (Cleanup freeOk readerOk st).2.free_count ∧
       (Cleanup f2 r2 (Cleanup freeOk readerOk st).2).2.archive = none ∧
       (Cleanup f2 r2 (Cleanup freeOk readerOk st).2).2.reader_closed = true) := by
  cases ha : st.archive <;> cases freeOk <;>
    simp [Cleanup, CleanupReader, ha]

/-- Counterexample to C9 as stated: with a healthy codec release but a
failing ByteSource release, `Cleanup` still reports overall success, so
"returns overall success only if both release steps succeeded" fails. -/
theorem c9_counterexample :
    (Cleanup true false stA).1 = true ∧
    (Cleanup true false stA).2.reader_release_failed = true ∧
    stA.reader_release_failed = false := by decide

/-- Witness for C9 (amended) at a concrete input. -/
theorem c9_cleanup_best_effort_witness :
    (Cleanup true true stA).2.reader_closed = true ∧
    ((Cleanup true true stA).1 = true ↔ (stA.archive = none ∨ true = true)) :=
  ⟨(c9_cleanup_best_effort true true stA).1, (c9_cleanup_best_effort true true stA).2.2.1⟩

/-- C10: `GetNextHeader` resets the forward cursor to 0, re-enables the
header phase and resets the chunk hint, but leaves the decompression window
untouched; consequently, when the window still holds undelivered bytes from
the previous entry, a `ReadData` at offset 0 on the newly selected entry is
served directly from those stale window bytes without invoking decompression
(`init_count` unchanged, the bytes returned are the old window's prefix). -/
theorem c10_stale_window_served (env : List Entry) (fuel : Nat) (length : Int)
    (st : VolumeState) (a : ArchiveState) (e : Entry)
    (harch : st.archive = some a) (hget : env[a.nextIdx]? = some e)
    (hsize : 0 < e.size) (hset : st.decompressed_data_set = true)
    (hw : st.window ≠ []) (herr : st.decompressed_error = false) :
    GetNextHeader env st =
      (.ok e, { st with header_read := true,
                        reader_data_size := kHeaderChunkSize,
                        last_read_data_offset := 0,
                        archive := some ⟨a.nextIdx + 1, 0⟩,
                        current_archive_entry := some e }) ∧
    ∃ st2, ReadData env fuel 0 length (GetNextHeader env st).2 =
        some (min (st.window.length : Int) length,
              st.window.take (min (st.window.length : Int) length).toNat, st2) ∧
      st2.init_count = st.init_count ∧
      st2.window = st.window.drop (min (st.window.length : Int) length).toNat := by
  have h1 : GetNextHeader env st =
      (.ok e, { st with header_read := true,
                        reader_data_size := kHeaderChunkSize,
                        last_read_data_offset := 0,
                        archive := some ⟨a.nextIdx + 1, 0⟩,
                        current_archive_entry := some e }) := by
    unfold GetNextHeader
    simp only [harch, hget]
  refine ⟨h1, ?_⟩
  have h2 : (GetNextHeader env st).2 =
      { st with header_read := true,
                reader_data_size := kHeaderChunkSize,
                last_read_data_offset := 0,
                archive := some ⟨a.nextIdx + 1, 0⟩,
                current_archive_entry := some e } := by rw [h1]
  rw [h2]
  have hserve := ReadData_serve_from_window env fuel 0 length
    { st with header_read := true,
              reader_data_size := kHeaderChunkSize,
              last_read_data_offset := 0,
              archive := some ⟨a.nextIdx + 1, 0⟩,
              current_archive_entry := some e }
    e rfl (by omega) hset rfl (by simpa [List.length_eq_zero] using hw) herr
  exact ⟨_, hserve, rfl, rfl⟩

/-- Witness for C10 at a concrete input: after `stStale` (window holds bytes
5..9 of entry `eA`), advancing to entry `eB` and reading `(0, 3)` serves the
stale bytes 5, 6, 7. -/
theorem c10_stale_window_served_witness :
    ∃ st2, ReadData env2 40 0 3 (GetNextHeader env2 stStale).2 =
        some (3, [5, 6, 7], st2) ∧
      st2.init_count = stStale.init_count ∧
      st2.window = [8, 9] :=
  (c10_stale_window_served env2 40 3 stStale ⟨1, 10⟩ eB (by decide) (by decide)
    (by decide) (by decide) (by decide) (by decide)).2

/-- C3 (amended): once the sticky flag `decompressed_error_` is set, every
`ReadData` call at an offset strictly below the current entry's size returns
the error sentinel (offsets at or past the entry size still return the
end-of-entry sentinel 0), and no operation of the instance —
`GetNextHeader`, `DecompressData`, `ReadData`, `MaybeDecompressAhead`,
`Cleanup` — ever clears the flag. -/
theorem c3_sticky_error :
    (∀ (env : List Entry) (fuel : Nat) (offset length : Int) (st : VolumeState)
       (e : Entry) (r : Int) (bs : List Nat) (st' : VolumeState),
       st.decompressed_error = true →
       st.current_archive_entry = some e →
       offset < e.size →
       ReadData env fuel offset length st = some (r, bs, st') →
       r = kArchiveReadDataError ∧ st'.decompressed_error = true) ∧
    (∀ (env : List Entry) (st : VolumeState),
       ((GetNextHeader env st).2).decompressed_error = st.decompressed_error) ∧
    (∀ (env : List Entry) (fuel : Nat) (offset length : Int) (st st' : VolumeState),
       st.decompressed_error = true →
       DecompressData env fuel offset length st = some st' →
       st'.decompressed_error = true) ∧
    (∀ (env : List Entry) (fuel : Nat) (offset length : Int) (st : VolumeState)
       (r : Int) (bs : List Nat) (st' : VolumeState),
       st.decompressed_error = true →
       ReadData env fuel offset length st = some (r, bs, st') →
       st'.decompressed_error = true) ∧
    (∀ (env : List Entry) (fuel : Nat) (st st' : VolumeState),
       st.decompressed_error = true →
       MaybeDecompressAhead env fuel st = some st' →
       st'.decompressed_error = true) ∧
    (∀ (freeOk readerOk : Bool) (st : VolumeState),
       ((Cleanup freeOk readerOk st).2).decompressed_error = st.decompressed_error) := by
  refine ⟨?_, ?_, ?_, ?_, ?_, ?_⟩
  · intro env fuel offset length st e r bs st' he hcur hsz h
    obtain ⟨_, h2, _⟩ := ReadData_cases env fuel offset length st r bs st' h
    exact ⟨(h2 he).2 e hcur hsz, (h2 he).1⟩
  · intro env st
    cases ha : st.archive with
    | none => simp [GetNextHeader, ha]
    | some a =>
      cases hg : env[a.nextIdx]? with
      | none => simp [GetNextHeader, ha, hg]
      | some e => simp [GetNextHeader, ha, hg]
  · intro env fuel offset length st st' he h
    exact (DecompressData_cases env fuel offset length st st' h).2.1 he
  · intro env fuel offset length st r bs st' he h
    exact ((ReadData_cases env fuel offset length st r bs st' h).2.1 he).1
  · intro env fuel st st' he h
    unfold MaybeDecompressAhead at h
    by_cases hw : st.window.length = 0
    · rw [if_pos hw] at h
      exact (DecompressData_cases env fuel _ _ st st' h).2.1 he
    · rw [if_neg hw] at h
      simp only [Option.some.injEq] at h
      subst h
      exact he
  · intro freeOk readerOk st
    cases ha : st.archive <;> cases freeOk <;> simp [Cleanup, CleanupReader, ha]

/-- Counterexample to C3 as stated: with the sticky flag set, a `ReadData`
call at an offset equal to the entry's size returns 0, not the distinguished
negative sentinel, so "for every offset" fails. -/
theorem c3_counterexample :
    st3.decompressed_error = true ∧
    ReadData env2 40 12 1 st3 = some (0, [], st3) ∧
    (0 : Int) ≠ kArchiveReadDataError := by decide

/-- Witness for C3 (amended) at a concrete input: with the flag set, the
read at offset 2 < 12 returns the sentinel and the flag stays set. -/
theorem c3_sticky_error_witness :
    (-1 : Int) = kArchiveReadDataError ∧ st3'.decompressed_error = true :=
  c3_sticky_error.1 env2 40 2 1 st3 eA (-1) [] st3' (by decide) (by decide)
    (by decide) (by decide)

/-- C4: the bytes accumulated into the decompression window by a
`DecompressData(offset, length)` call never exceed
`min(length, kDecompressBufferSize)` (the window can only shrink otherwise),
and the window invariant `liveStart + liveLength ≤ kDecompressBufferSize`
holds in the freshly constructed state and is preserved by every `ReadData`
call, so after every `ReadData` it holds and peak window memory is bounded by
the fixed capacity independent of the requested length. -/
theorem c4_window_bounded :
    (∀ (env : List Entry) (fuel : Nat) (offset length : Int) (st st' : VolumeState),
       DecompressData env fuel offset length st = some st' →
       (st'.window.length : Int) ≤
         max (min length kDecompressBufferSize) (st.window.length : Int)) ∧
    (windowInv initialState ∧
     ∀ (env : List Entry) (fuel : Nat) (offset length : Int) (st : VolumeState)
       (r : Int) (bs : List Nat) (st' : VolumeState),
       windowInv st →
       ReadData env fuel offset length st = some (r, bs, st') →
       windowInv st') := by
  refine ⟨?_, by decide, ?_⟩
  · intro env fuel offset length st st' h
    rcases (DecompressData_cases env fuel offset length st st' h).2.2 with ⟨hw, _⟩ | ⟨_, hb⟩
    · rw [hw]
      exact le_max_right _ _
    · have : (0 : Int) ≤ (st.window.length : Int) := by positivity
      omega
  · intro env fuel offset length st r bs st' hv h
    exact (ReadData_cases env fuel offset length st r bs st' h).2.2 hv

/-- Witness for C4 at a concrete input: the window invariant holds after
`ReadData(0, 5)` on `stA`. -/
theorem c4_window_bounded_witness : windowInv stA5 :=
  c4_window_bounded.2.2 env2 40 0 5 stA 5 [0, 1, 2, 3, 4] stA5 (by decide) (by decide)

/-- C6: the pull-read callback serves a header-phase cache hit by returning
the cached bytes and skipping the ByteSource forward by exactly their size
(any other skip count is a fatal error that installs the codec error
message); otherwise it records the pre-read offset, reads up to the hinted
chunk size, and stores the bytes into the header cache under the recorded
offset exactly when still in header phase and more than 0 bytes were read. -/
theorem c6_pull_read (b : BridgeState) :
    (∀ hb : List Nat, b.header_read = true →
      cacheGet b.cache b.reader.offset = some hb →
      (((readerSkip b.reader hb.length).1 = (hb.length : Int) →
         CustomArchiveRead b =
           ((hb.length : Int), hb,
            { b with reader := (readerSkip b.reader hb.length).2 }) ∧
         (readerSkip b.reader hb.length).2.offset = b.reader.offset + hb.length) ∧
       ((readerSkip b.reader hb.length).1 ≠ (hb.length : Int) →
         CustomArchiveRead b =
           (archiveFatal, [],
            { b with reader := (readerSkip b.reader hb.length).2,
                     error_set := true })))) ∧
    (b.header_read = false ∨ cacheGet b.cache b.reader.offset = none →
      (((readerRead b.reader b.reader_data_size).1 = archiveFatal →
         CustomArchiveRead b =
           (archiveFatal, [],
            { b with reader := (readerRead b.reader b.reader_data_size).2.2,
                     error_set := true })) ∧
       ((readerRead b.reader b.reader_data_size).1 ≠ archiveFatal →
         CustomArchiveRead b =
           ((readerRead b.reader b.reader_data_size).1,
            (readerRead b.reader b.reader_data_size).2.1,
            { b with reader := (readerRead b.reader b.reader_data_size).2.2,
                     cache :=
                       if b.header_read ∧ 0 < (readerRead b.reader b.reader_data_size).1
                       then (b.reader.offset, (readerRead b.reader b.reader_data_size).2.1) ::
                         b.cache
                       else b.cache })))) := by
  constructor
  · intro hb hhr hcache
    unfold CustomArchiveRead
    simp only [hhr, if_true, hcache]
    constructor
    · intro hskipeq
      constructor
      · rw [if_neg (fun hne => hne hskipeq)]
      · unfold readerSkip at hskipeq ⊢
        by_cases hsf : b.reader.skipFail
        · rw [if_pos hsf] at hskipeq ⊢
          have h0 : (0 : Int) = (hb.length : Int) := hskipeq
          show b.reader.offset = b.reader.offset + (hb.length : Int)
          omega
        · rw [if_neg hsf] at hskipeq ⊢
          have h0 : min (hb.length : Int) ((b.reader.data.length : Int) - b.reader.offset) =
              (hb.length : Int) := hskipeq
          show b.reader.offset +
              min (hb.length : Int) ((b.reader.data.length : Int) - b.reader.offset) =
              b.reader.offset + (hb.length : Int)
          omega
    · intro hne
      rw [if_pos hne]
  · intro hmiss
    have hscr : (if b.header_read then cacheGet b.cache b.reader.offset else none) = none := by
      rcases hmiss with hf | hn
      · rw [if_neg (by simp [hf])]
      · by_cases hhr : b.header_read = true
        · rw [if_pos hhr, hn]
        · rw [if_neg (by simpa using hhr)]
    unfold CustomArchiveRead
    simp only [hscr]
    constructor
    · intro hfat
      rw [if_pos hfat]
    · intro hnf
      rw [if_neg hnf]
      by_cases hcc : b.header_read = true ∧ 0 < (readerRead b.reader b.reader_data_size).1
      · rw [if_pos hcc, if_pos hcc]
      · rw [if_neg hcc, if_neg hcc]

/-- Witness for C6 at a concrete input: a header-phase cache hit at offset 0
returns the three cached bytes and advances the reader by exactly 3. -/
theorem c6_pull_read_witness :
    CustomArchiveRead bHit =
      ((3 : Int), [1, 2, 3], { bHit with reader := (readerSkip bHit.reader 3).2 }) ∧
    (readerSkip bHit.reader 3).2.offset = bHit.reader.offset + 3 :=
  ((c6_pull_read bHit).1 [1, 2, 3] rfl (by decide)).1 (by decide)

/-- C7: the pull-read, pull-seek and pull-close callbacks never return
`ARCHIVE_FATAL` to the codec without the codec error channel having been set
(`archive_set_error` precedes every fatal return caused by a ByteSource
failure). -/
theorem c7_fatal_sets_error (b : BridgeState) :
    ((CustomArchiveRead b).1 = archiveFatal →
       (CustomArchiveRead b).2.2.error_set = true) ∧
    (∀ (offset : Int) (whence : Nat),
       (CustomArchiveSeek b offset whence).1 = archiveFatal →
       (CustomArchiveSeek b offset whence).2.error_set = true) ∧
    ((CustomArchiveClose b).1 = archiveFatal →
       (CustomArchiveClose b).2.error_set = true) := by
  refine ⟨?_, ?_, ?_⟩
  · unfold CustomArchiveRead
    rcases hscr : (if b.header_read then cacheGet b.cache b.reader.offset else none) with
      _ | hbytes
    · simp only [hscr]
      by_cases h1 : (readerRead b.reader b.reader_data_size).1 = archiveFatal
      · rw [if_pos h1]
        intro _
        rfl
      · rw [if_neg h1]
        by_cases h2 : b.header_read = true ∧ 0 < (readerRead b.reader b.reader_data_size).1
        · rw [if_pos h2]
          intro hfa
          exact absurd hfa h1
        · rw [if_neg h2]
          intro hfa
          exact absurd hfa h1
    · simp only [hscr]
      by_cases h1 : (readerSkip b.reader (hbytes.length : Int)).1 ≠ (hbytes.length : Int)
      · rw [if_pos h1]
        intro _
        rfl
      · rw [if_neg h1]
        intro hfa
        exfalso
        have h2 : ((hbytes.length : Nat) : Int) = archiveFatal := hfa
        have h3 : archiveFatal = -30 := rfl
        omega
  · intro offset whence
    unfold CustomArchiveSeek
    by_cases h1 : (readerSeek b.reader offset whence).1 = archiveFatal
    · rw [if_pos h1]
      intro _
      rfl
    · rw [if_neg h1]
      intro hfa
      exact absurd hfa h1
  · unfold CustomArchiveClose
    by_cases h1 : readerClose b.reader = archiveFatal
    · rw [if_pos h1]
      intro _
      rfl
    · rw [if_neg h1]
      intro hfa
      exact absurd hfa h1

/-- Witness for C7 at a concrete input: a reader whose next read fails
fatally leaves the codec error channel set. -/
theorem c7_fatal_sets_error_witness :
    (CustomArchiveRead bReadFail).2.2.error_set = true :=
  (c7_fatal_sets_error bReadFail).1 (by decide)

/-- C1: a `DecompressData` call with offset strictly below the forward
cursor releases the codec, resets the ByteSource to offset 0, runs `Init()`
again (each exactly once), and replays headers until an entry with the
previously current pathname reappears; if end of archive is reached without
finding that pathname, the sticky flag is set with the file-not-found
message (and with enough fuel that outcome is in fact produced). -/
theorem c1_backward_releases_resets_replays (env : List Entry) (fuel : Nat)
    (offset length : Int) (st : VolumeState) (e : Entry)
    (hcur : st.current_archive_entry = some e)
    (hback : offset < st.last_read_data_offset) :
    (∀ st', DecompressData env fuel offset length st = some st' →
       st'.init_count = st.init_count + 1 ∧
       st'.free_count = st.free_count + 1 ∧
       st'.reader_reset_count = st.reader_reset_count + 1 ∧
       ((∃ e2, st'.current_archive_entry = some e2 ∧ e2.pathname = e.pathname) ∨
        (st'.decompressed_error = true ∧ st'.error_message = some kFileNotFound))) ∧
    ((∀ x, x ∈ env → x.pathname ≠ e.pathname) → env.length + 1 ≤ fuel →
       ∃ st', DecompressData env fuel offset length st = some st' ∧
         st'.decompressed_error = true ∧ st'.error_message = some kFileNotFound) := by
  constructor
  · intro st' h
    rcases hrep : replayLoop env e.pathname fuel
        (Init { st with header_read := false, archive := none,
                        current_archive_entry := some e,
                        free_count := st.free_count + 1,
                        reader_reset_count := st.reader_reset_count + 1 }) with
      _ | ⟨flag, str⟩
    · rw [DecompressData_backward_none env fuel offset length st e hback hcur hrep] at h
      simp at h
    · obtain ⟨r1, r2, r3, r4, r5, r6, r7, r8, r9⟩ :=
        replayLoop_some env e.pathname fuel _ str flag (by simp [Init]) hrep
      cases flag with
      | true =>
        rw [DecompressData_backward_stop env fuel offset length st str e hback hcur hrep] at h
        simp only [Option.some.injEq] at h
        subst h
        exact ⟨r1.trans rfl, r2.trans rfl, r3.trans rfl, Or.inr (r9 rfl)⟩
      | false =>
        rw [DecompressData_backward_found env fuel offset length st str e hback hcur hrep] at h
        obtain ⟨s1, s2, s3, s4, s5, s6, s7⟩ :=
          skipAndDecode_cases env fuel offset length str st' h
        obtain ⟨e2, he2, hp2⟩ := (r8 rfl).2
        exact ⟨(s1.trans r1).trans rfl, (s4.trans r2).trans rfl, (s5.trans r3).trans rfl,
          Or.inl ⟨e2, s2.trans he2, hp2⟩⟩
  · intro hnp hfuel2
    have hrep := replayLoop_notFound env e.pathname fuel 0
      (Init { st with header_read := false, archive := none,
                      current_archive_entry := some e,
                      free_count := st.free_count + 1,
                      reader_reset_count := st.reader_reset_count + 1 })
      rfl (by omega) (fun x hx => hnp x (by simpa using hx)) (by omega)
    exact ⟨_, DecompressData_backward_stop env fuel offset length st _ e hback hcur hrep,
      rfl, rfl⟩

/-- Witness for C1 at a concrete input: the backward `DecompressData(2, 3)`
on `stB` performs exactly one release, one ByteSource reset and one `Init`,
and resynchronizes on an entry with pathname `"a"`. -/
theorem c1_backward_releases_resets_replays_witness :
    stDD.init_count = stB.init_count + 1 ∧
    stDD.free_count = stB.free_count + 1 ∧
    stDD.reader_reset_count = stB.reader_reset_count + 1 ∧
    ((∃ e2, stDD.current_archive_entry = some e2 ∧ e2.pathname = eA.pathname) ∨
     (stDD.decompressed_error = true ∧ stDD.error_message = some kFileNotFound)) :=
  (c1_backward_releases_resets_replays env2 40 2 3 stB eA (by decide) (by decide)).1
    stDD (by decide)

theorem forwardSkip_stuck5 : ∀ f : Nat, forwardSkip env5 8 f st5w = none := by
  intro f
  induction f with
  | zero => rfl
  | succ f ih =>
    have hstep : forwardSkip env5 8 (f + 1) st5w = forwardSkip env5 8 f st5w := rfl
    rw [hstep, ih]

theorem forwardSkip_start5 : ∀ f : Nat, forwardSkip env5 8 f st5h = none := by
  intro f
  cases f with
  | zero => rfl
  | succ f =>
    have hstep : forwardSkip env5 8 (f + 1) st5h = forwardSkip env5 8 f st5w := rfl
    rw [hstep]
    exact forwardSkip_stuck5 f

/-- C5 (the code evaluated at the failing input): on the truncated entry
`eT` (declared size 10, only 3 decodable bytes), the `ReadData(8, 1)` call
never terminates, at every fuel bound — the forward-skip loop re-reads 0
bytes forever instead of failing.  `PP_DCHECK(size != 0)` at line 278 would
catch this in a debug build only; in release the loop never exits. -/
theorem c5_truncated_entry_skip_never_terminates :
    ∀ fuel : Nat, ReadData env5 fuel 8 1 st5 = none := by
  intro fuel
  have hdd : DecompressData env5 fuel 8 1 st5 = none := by
    unfold DecompressData decompressBody
    rw [if_neg (by decide)]
    show skipAndDecode env5 fuel 8 1 st5h = none
    unfold skipAndDecode
    rw [forwardSkip_start5 fuel]
  unfold ReadData
  simp only [show st5.current_archive_entry = some eT from rfl]
  rw [if_neg (by decide), if_pos (Or.inl (by decide))]
  simp only [hdd]

/-- Witness for C5 at a concrete fuel bound. -/
theorem c5_truncated_entry_skip_never_terminates_witness :
    ReadData env5 100 8 1 st5 = none :=
  c5_truncated_entry_skip_never_terminates 100

end WGU
